import Mathlib

/-!
# Linception: nested Lua states

A shallow embedding of `linception.c` and of the part of the Lua C API it calls.
A `lua_State` is a record of the pieces the library reads or writes (value stack,
registry, tables, full userdata); the child states created by `lua_newstate` live in a
separate heap of the `World`, and a pointer to one is its position there.  What the Lua
engine decides on its own (memory, the compiler, the execution of a chunk, the bodies of
the library installers) is a parameter, `Engine`.  Memory can be refused where the source
tests for it (`lua_newuserdata`, `lua_newstate`); pushing a boolean or a literal is taken to
succeed.  Where Lua 5.1 and 5.2 differ, the definitions follow the 5.1 branch of the source.
-/

namespace Linception

/-! ## Values and states -/

/-- The library installers named in `linc_library_openers` (declared in lualib.h). -/
inductive Opener
  | luaopen_base
  | luaopen_math
  | luaopen_string
  | luaopen_table
  | luaopen_io
  | luaopen_os
  | luaopen_package
  | luaopen_debug
  deriving DecidableEq

/-- The C functions this library registers with Lua. -/
inductive CFn
  | linc_state_openlib
  | linc_state_dostring
  | linc_newstate
  deriving DecidableEq

/-- Lua values. A table or a full userdata is a reference into the heap of its state; a
`lfunction` is a compiled chunk. -/
inductive Value
  | nil
  | boolean (b : Bool)
  | number (n : Int)
  | string (s : String)
  | table (ref : Nat)
  | cfunction (f : CFn)
  | lfunction (id : Nat)
  | userdata (ref : Nat)
  deriving DecidableEq

/-- The C struct `linc_state_handle`: one pointer to a child state, `none` for NULL. -/
structure linc_state_handle where
  child : Option Nat
  deriving DecidableEq

/-- A full userdata: its memory block, read as a `linc_state_handle`, and its metatable. -/
structure UData where
  block : linc_state_handle
  metatable : Option Nat
  deriving DecidableEq

/-- The parts of a `lua_State` that the library can observe. -/
structure lua_State where
  allocf : Nat
  allocud : Nat
  stack : List Value
  registry : List (String × Value)
  tables : List (List (Value × Value))
  udata : List (Option UData)
  globals : List (String × Value)
  opened : List Opener
  deriving DecidableEq

/-- The parent state `L` together with the child states allocated so far. -/
structure World where
  L : lua_State
  children : List lua_State
  deriving DecidableEq

/-- How a C function can end other than by returning: a Lua error raised in the parent
(`luaL_argerror`, `luaL_error`, a memory error), or undefined behaviour of the C program,
which is not a Lua error and cannot be caught: a call through a NULL function pointer, the
use of a state pointer that is NULL or dangling, a read past the end of an array. -/
inductive Fault
  | argerror (narg : Nat) (extramsg : String)
  | error (msg : String)
  | errmem
  | nullcall
  | badstate
  | badread
  deriving DecidableEq

/-- What the Lua engine decides: the number formatting of `lua_tolstring`, whether
`lua_newuserdata` and `lua_newstate` find memory, the compiler behind `luaL_loadbuffer`
(a chunk, or an error message), the execution of a chunk under `lua_pcall` (new globals and
either the returned values or the error value), and the body of each installer. -/
structure Engine where
  number2str : Int → String
  newuserdata_ok : World → Bool
  newstate_ok : World → Bool
  compile : lua_State → String → String → Except Value Value
  exec : lua_State → Value → List (String × Value) × Except Value (List Value)
  installer : Opener → lua_State → lua_State

/-! ## The Lua C API, as far as the library uses it -/

def LUA_ERRRUN : Nat := 2
def LUA_ERRSYNTAX : Nat := 3

/-- The `LINCEPTION_METATABLE` constant. -/
def LINCEPTION_METATABLE : String := "linception.metatable"

/-- Stack position of an index: positive indices count from the bottom (1 is the first
argument), negative ones from the top (-1 is the top). The result 0 stands for no slot. -/
def absindex (st : lua_State) (idx : Int) : Nat :=
  if 0 < idx then idx.toNat else (st.stack.length + 1 + idx).toNat

/-- The value at an index, `none` when the index is not in the stack (LUA_TNONE). -/
def index2value (st : lua_State) (idx : Int) : Option Value :=
  match absindex st idx with
  | 0 => none
  | n + 1 => st.stack[n]?

def lua_push (st : lua_State) (v : Value) : lua_State :=
  { st with stack := st.stack ++ [v] }

def lua_pushboolean (st : lua_State) (b : Bool) : lua_State :=
  lua_push st (Value.boolean b)

def lua_pushliteral (st : lua_State) (s : String) : lua_State :=
  lua_push st (Value.string s)

def lua_pop (st : lua_State) (n : Nat) : lua_State :=
  { st with stack := st.stack.take (st.stack.length - n) }

def lua_pushvalue (st : lua_State) (idx : Int) : lua_State :=
  lua_push st ((index2value st idx).getD Value.nil)

/-- The name `luaL_typename` gives for the value at an index. -/
def luaL_typename (v : Option Value) : String :=
  match v with
  | none => "no value"
  | some Value.nil => "nil"
  | some (Value.boolean _) => "boolean"
  | some (Value.number _) => "number"
  | some (Value.string _) => "string"
  | some (Value.table _) => "table"
  | some (Value.cfunction _) => "function"
  | some (Value.lfunction _) => "function"
  | some (Value.userdata _) => "userdata"

/-- Lua's `luaL_typerror`: an argument error saying what was expected and what was found. -/
def luaL_typerror (st : lua_State) (narg : Nat) (tname : String) : Fault :=
  Fault.argerror narg (tname ++ " expected, got " ++ luaL_typename (index2value st narg))

/-- Assignment `t[k] = v` on a table object. -/
def table_set (t : List (Value × Value)) (k v : Value) : List (Value × Value) :=
  t.filter (fun kv => kv.1 != k) ++ [(k, v)]

/-- Raw lookup `t[k]`. -/
def table_get (t : List (Value × Value)) (k : Value) : Option Value :=
  (t.find? (fun kv => kv.1 == k)).map Prod.snd

/-- Assignment into the table object with reference `ref` of a state. -/
def heap_set (st : lua_State) (ref : Nat) (k v : Value) : lua_State :=
  match st.tables[ref]? with
  | some t => { st with tables := st.tables.set ref (table_set t k v) }
  | none => st

/-- Lua's `lua_newtable`: a new empty table is pushed. -/
def lua_newtable (st : lua_State) : lua_State :=
  lua_push { st with tables := st.tables ++ [[]] } (Value.table st.tables.length)

/-- Lua's `lua_settable(L, idx)`: `t[k] = v` for the table at `idx`, the value on top and
the key below it; both are popped. -/
def lua_settable (st : lua_State) (idx : Int) : lua_State :=
  match index2value st idx, index2value st (-2), index2value st (-1) with
  | some (Value.table ref), some k, some v => lua_pop (heap_set st ref k v) 2
  | _, _, _ => lua_pop st 2

/-- Lua 5.1 `luaL_register(L, NULL, l)`: every function of the list is stored under its
name in the table on top of the stack. -/
def luaL_register (st : lua_State) (l : List (String × CFn)) : lua_State :=
  match index2value st (-1) with
  | some (Value.table ref) =>
      l.foldl (fun s nf => heap_set s ref (Value.string nf.1) (Value.cfunction nf.2)) st
  | _ => st

/-- Lua's `lua_getfield(L, LUA_REGISTRYINDEX, name)`, the value only. -/
def registry_get (st : lua_State) (name : String) : Option Value :=
  (st.registry.find? (fun kv => kv.1 == name)).map Prod.snd

/-- Lua's `luaL_getmetatable`: pushes the registry entry of that name, nil if there is none. -/
def luaL_getmetatable (st : lua_State) (name : String) : lua_State :=
  lua_push st ((registry_get st name).getD Value.nil)

/-- Lua's `luaL_newmetatable`: when the registry already has an entry of that name it is
pushed and 0 is returned; otherwise a new table is created, registered, pushed, and 1 is
returned. -/
def luaL_newmetatable (st : lua_State) (name : String) : lua_State × Nat :=
  match registry_get st name with
  | some v => (lua_push st v, 0)
  | none =>
      let st1 := lua_newtable st
      ({ st1 with registry := st1.registry ++ [(name, Value.table st.tables.length)] }, 1)

/-- Lua's `lua_setmetatable(L, idx)`: pops a table (or nil) and makes it the metatable of
the value at `idx`. Only full userdata are modelled as receivers. -/
def lua_setmetatable (st : lua_State) (idx : Int) : lua_State :=
  let mt : Option Nat :=
    match index2value st (-1) with
    | some (Value.table ref) => some ref
    | _ => none
  match index2value st idx with
  | some (Value.userdata u) =>
      match st.udata[u]? with
      | some (some d) => lua_pop { st with udata := st.udata.set u (some { d with metatable := mt }) } 1
      | _ => lua_pop st 1
  | _ => lua_pop st 1

/-- Lua's `lua_getallocf`: the allocator function of a state and its opaque pointer. -/
def lua_getallocf (st : lua_State) : Nat × Nat :=
  (st.allocf, st.allocud)

/-- The state `lua_newstate` returns when it succeeds: the given allocator, an empty stack,
nothing registered and no library opened. -/
def fresh_state (allocator userdata : Nat) : lua_State :=
  { allocf := allocator, allocud := userdata, stack := [], registry := [], tables := [],
    udata := [], globals := [], opened := [] }

/-- Lua's `lua_newstate`: a pointer to a new state, or NULL when memory is refused. -/
def lua_newstate (E : Engine) (w : World) (allocator userdata : Nat) : World × Option Nat :=
  if E.newstate_ok w then
    ({ w with children := w.children ++ [fresh_state allocator userdata] }, some w.children.length)
  else (w, none)

/-- Lua's `lua_newuserdata`: allocates a block, pushes the userdata and returns its address;
raises a memory error when memory is refused. It never returns NULL. The block starts with a
NULL `child`, which the caller overwrites before reading. -/
def lua_newuserdata (E : Engine) (w : World) : Except Fault (World × Option Nat) :=
  if E.newuserdata_ok w then
    let L := w.L
    let L1 := lua_push { L with udata := L.udata ++ [some { block := { child := none }, metatable := none }] }
      (Value.userdata L.udata.length)
    Except.ok ({ w with L := L1 }, some L.udata.length)
  else Except.error Fault.errmem

/-- Lua 5.1 `luaL_checkudata`: the address of the userdata at `ud` when it is a full userdata
whose metatable is the one registered under `tname`; a type error on that argument otherwise.
It never returns NULL. -/
def luaL_checkudata (st : lua_State) (ud : Nat) (tname : String) : Except Fault (Option Nat) :=
  match index2value st ud with
  | some (Value.userdata u) =>
      match st.udata[u]? with
      | some (some d) =>
          match d.metatable, registry_get st tname with
          | some m, some (Value.table r) => if m = r then Except.ok (some u) else Except.error (luaL_typerror st ud tname)
          | _, _ => Except.error (luaL_typerror st ud tname)
      | _ => Except.error (luaL_typerror st ud tname)
  | _ => Except.error (luaL_typerror st ud tname)

/-- The C view of a Lua string: the bytes before the first NUL. -/
def cstr (s : String) : String :=
  String.mk (s.toList.takeWhile (fun c => c != Char.ofNat 0))

/-- Lua's `lua_tolstring`: strings as they are, numbers converted, nothing else. (That a
number argument is converted in its stack slot is not modelled.) -/
def lua_tolstring (E : Engine) (st : lua_State) (narg : Nat) : Option String :=
  match index2value st narg with
  | some (Value.string s) => some s
  | some (Value.number n) => some (E.number2str n)
  | _ => none

/-- Lua's `luaL_checklstring`: the string at `narg`, a type error when there is none. -/
def luaL_checklstring (E : Engine) (st : lua_State) (narg : Nat) : Except Fault String :=
  match lua_tolstring E st narg with
  | some s => Except.ok s
  | none => Except.error (luaL_typerror st narg "string")

/-- Lua's `luaL_optstring`: the default when the argument is absent or nil. -/
def luaL_optstring (E : Engine) (st : lua_State) (narg : Nat) (d : String) : Except Fault String :=
  match index2value st narg with
  | none => Except.ok d
  | some Value.nil => Except.ok d
  | some _ => luaL_checklstring E st narg

/-- The loop of `luaL_checkoption`: the first position `i` from `i0` on with
`strcmp(lst[i], name) == 0`; the list ends at its NULL entry. -/
def find_option (name : String) : List (Option String) → Nat → Option Nat
  | [], _ => none
  | none :: _, _ => none
  | some s :: rest, i => if cstr s = cstr name then some i else find_option name rest (i + 1)

/-- Lua's `luaL_checkoption(L, narg, def, lst)` with a non-NULL default: the index of the
argument in the NULL-terminated list (compared as C strings), an argument error on `narg`
when it is not there. -/
def luaL_checkoption (E : Engine) (st : lua_State) (narg : Nat) (d : String)
    (lst : List (Option String)) : Except Fault Nat :=
  match luaL_optstring E st narg d with
  | Except.error e => Except.error e
  | Except.ok name =>
      match find_option name lst 0 with
      | some i => Except.ok i
      | none =>
          Except.error (Fault.argerror narg
            ("invalid option " ++ String.singleton (Char.ofNat 39) ++ cstr name
              ++ String.singleton (Char.ofNat 39)))

/-- Lua's `luaL_loadbuffer`: compiles the buffer in the state; the chunk is pushed and 0
returned, or the error message is pushed and a non-zero status returned. -/
def luaL_loadbuffer (E : Engine) (Lc : lua_State) (code : String) (name : String) :
    lua_State × Nat :=
  match E.compile Lc code name with
  | Except.ok f => (lua_push Lc f, 0)
  | Except.error msg => (lua_push Lc msg, LUA_ERRSYNTAX)

/-- Lua's `lua_pcall(Lc, 0, LUA_MULTRET, 0)`: the function on top of the stack is popped and
run; all its results are pushed and 0 returned, or the error value is pushed and a non-zero
status returned. The slots below the function are not touched. -/
def lua_pcall (E : Engine) (Lc : lua_State) : lua_State × Nat :=
  let f := (index2value Lc (-1)).getD Value.nil
  let below := lua_pop Lc 1
  match E.exec below f with
  | (g, Except.ok results) => ({ below with globals := g, stack := below.stack ++ results }, 0)
  | (g, Except.error e) => ({ below with globals := g, stack := below.stack ++ [e] }, LUA_ERRRUN)

/-! ## linception.c -/

def LUA_COLIBNAME : String := "coroutine"
def LUA_MATHLIBNAME : String := "math"
def LUA_STRLIBNAME : String := "string"
def LUA_TABLIBNAME : String := "table"
def LUA_IOLIBNAME : String := "io"
def LUA_OSLIBNAME : String := "os"
def LUA_LOADLIBNAME : String := "package"
def LUA_DBLIBNAME : String := "debug"

/-- The handle stored in the userdata block at address `sh` (a NULL child when there is no
such block). -/
def handle_at (st : lua_State) (sh : Nat) : linc_state_handle :=
  match st.udata[sh]? with
  | some (some d) => d.block
  | _ => { child := none }

/-- The assignment `sh->child = p`. -/
def set_child (st : lua_State) (sh : Nat) (p : Option Nat) : lua_State :=
  match st.udata[sh]? with
  | some (some d) => { st with udata := st.udata.set sh (some { d with block := { child := p } }) }
  | _ => st

/-- Runs an API function on the child state a pointer refers to and stores the state it
leaves; `none` when the pointer is NULL or refers to no state. -/
def on_child (w : World) (Lc : Option Nat) (f : lua_State → lua_State × Nat) : Option (World × Nat) :=
  match Lc with
  | none => none
  | some p =>
      match w.children[p]? with
      | none => none
      | some c => some ({ w with children := w.children.set p (f c).1 }, (f c).2)

/-- The call `opener(Lc)` of a library installer on a state: the installer's body runs, and
the state records that it was run. -/
def call_opener (E : Engine) (opener : Opener) (c : lua_State) : lua_State × Nat :=
  ({ E.installer opener c with opened := c.opened ++ [opener] }, 0)

/-- The function `linc_create_child_state`. -/
def linc_create_child_state (E : Engine) (w : World) : World × Option Nat :=
  let (allocator, userdata) := lua_getallocf w.L
  lua_newstate E w allocator userdata

/-- The function `linc_check_state_handle`: the address of the handle in argument 1. -/
def linc_check_state_handle (L : lua_State) : Except Fault Nat :=
  match luaL_checkudata L 1 LINCEPTION_METATABLE with
  | Except.error e => Except.error e
  | Except.ok none => Except.error (Fault.argerror 1 "not a Lua state handle")
  | Except.ok (some sh) =>
      if (handle_at L sh).child != none then Except.ok sh
      else Except.error (Fault.argerror 1 "state has been closed")

/-- The array `linc_library_names`. -/
def linc_library_names : List (Option String) :=
  [ some "base",
    some LUA_COLIBNAME,
    some LUA_MATHLIBNAME,
    some LUA_STRLIBNAME,
    some LUA_TABLIBNAME,
    some LUA_IOLIBNAME,
    some LUA_OSLIBNAME,
    some LUA_LOADLIBNAME,
    some LUA_DBLIBNAME,
    none ]

/-- The array `linc_library_openers`. -/
def linc_library_openers : List (Option Opener) :=
  [ some Opener.luaopen_base,
    some Opener.luaopen_math,
    some Opener.luaopen_string,
    some Opener.luaopen_table,
    some Opener.luaopen_io,
    some Opener.luaopen_os,
    some Opener.luaopen_package,
    some Opener.luaopen_debug,
    none ]

/-- The function `linc_state_openlib`. The result is the world it leaves and either the
number of values returned or the fault that ended the call. -/
def linc_state_openlib (E : Engine) (w : World) : World × Except Fault Nat :=
  match linc_check_state_handle w.L with
  | Except.error e => (w, Except.error e)
  | Except.ok sh =>
      let Lc := (handle_at w.L sh).child
      match luaL_checkoption E w.L 2 "base" linc_library_names with
      | Except.error e => (w, Except.error e)
      | Except.ok libindex =>
          match linc_library_openers[libindex]? with
          | none => (w, Except.error Fault.badread)
          | some none => (w, Except.error Fault.nullcall)
          | some (some opener) =>
              match on_child w Lc (call_opener E opener) with
              | none => (w, Except.error Fault.badstate)
              | some (w1, _) => (w1, Except.ok 0)

/-- The function `linc_state_dostring`. -/
def linc_state_dostring (E : Engine) (w : World) : World × Except Fault Nat :=
  match linc_check_state_handle w.L with
  | Except.error e => (w, Except.error e)
  | Except.ok sh =>
      let Lc := (handle_at w.L sh).child
      match luaL_checklstring E w.L 2 with
      | Except.error e => (w, Except.error e)
      | Except.ok code =>
          match on_child w Lc (fun c => luaL_loadbuffer E c code "parent") with
          | none => (w, Except.error Fault.badstate)
          | some (w1, load_error) =>
              if load_error == 0 then
                match on_child w1 Lc (lua_pcall E) with
                | none => (w1, Except.error Fault.badstate)
                | some (w2, error) =>
                    if error != 0 then
                      let L1 := lua_pushboolean w2.L false
                      let L2 := lua_pushliteral L1 "could not run provided code"
                      ({ w2 with L := L2 }, Except.ok 2)
                    else
                      let L1 := lua_pushboolean w2.L true
                      ({ w2 with L := L1 }, Except.ok 1)
              else
                let L1 := lua_pushboolean w1.L false
                let L2 := lua_pushliteral L1 "could not compile provided code"
                ({ w1 with L := L2 }, Except.ok 2)

/-- The function `linc_newstate`. -/
def linc_newstate (E : Engine) (w : World) : World × Except Fault Nat :=
  match lua_newuserdata E w with
  | Except.error e => (w, Except.error e)
  | Except.ok (w1, none) =>
      (w1, Except.error
        (Fault.error ("linception: could not allocate space for a " ++ "new state handle")))
  | Except.ok (w1, some sh) =>
      let L2 := set_child w1.L sh none
      let L3 := luaL_getmetatable L2 LINCEPTION_METATABLE
      let L4 := lua_setmetatable L3 (-2)
      let (w5, child) := linc_create_child_state E { w1 with L := L4 }
      let w6 := { w5 with L := set_child w5.L sh child }
      if child == none then
        (w6, Except.error (Fault.error "linception: could not create new Lua state"))
      else (w6, Except.ok 1)

/-- The function `linc_install_metatable` (with `luaL_setfuncs` as defined for Lua 5.1). -/
def linc_install_metatable (L : lua_State) : lua_State × Nat :=
  let methods := [("openlib", CFn.linc_state_openlib), ("dostring", CFn.linc_state_dostring)]
  let (L1, created) := luaL_newmetatable L LINCEPTION_METATABLE
  if created == 0 then (L1, 0)
  else
    let L2 := luaL_register L1 methods
    let L3 := lua_pushliteral L2 "__index"
    let L4 := lua_pushvalue L3 (-2)
    let L5 := lua_settable L4 (-3)
    (L5, 1)

/-- The function `luaopen_linception` (with `luaL_newlib` as defined for Lua 5.1). -/
def luaopen_linception (L : lua_State) : lua_State × Nat :=
  let linception := [("newstate", CFn.linc_newstate)]
  let L1 := luaL_register (lua_newtable L) linception
  let (L2, _) := linc_install_metatable L1
  let L3 := lua_pop L2 1
  (L3, 1)

/-! ## Calls from Lua and collection -/

/-- Dispatch of a registered C function. -/
def call_cfunction (E : Engine) (f : CFn) (w : World) : World × Except Fault Nat :=
  match f with
  | CFn.linc_state_openlib => linc_state_openlib E w
  | CFn.linc_state_dostring => linc_state_dostring E w
  | CFn.linc_newstate => linc_newstate E w

/-- The world as a C function sees it when it is called with the given arguments: its
frame holds exactly the arguments. -/
def enter (w : World) (args : List Value) : World :=
  { w with L := { w.L with stack := args } }

/-- A call of a C function from Lua with the given arguments: the function runs on a frame
that holds the arguments, the values it returns are the topmost ones of its frame, and the
caller's frame is restored. -/
def lua_call (E : Engine) (f : CFn) (args : List Value) (w : World) :
    World × Except Fault (List Value) :=
  let frame := w.L.stack
  let r := call_cfunction E f (enter w args)
  let w1 : World := { r.1 with L := { r.1.L with stack := frame } }
  match r.2 with
  | Except.error e => (w1, Except.error e)
  | Except.ok n => (w1, Except.ok (r.1.L.stack.drop (r.1.L.stack.length - n)))

/-- The `__gc` entry of the metatable of a full userdata, if it has one. -/
def gc_finalizer (L : lua_State) (u : Nat) : Option Value :=
  match L.udata[u]? with
  | some (some d) =>
      match d.metatable with
      | some m =>
          match L.tables[m]? with
          | some t => table_get t (Value.string "__gc")
          | none => none
      | none => none
  | _ => none

/-- Lua's collection of a full userdata that is no longer referenced: when its metatable has
a `__gc` function, that function is called with the userdata; then the block is freed.
Nothing else happens to what the block pointed to. -/
def lua_collect (E : Engine) (w : World) (u : Nat) : World :=
  let w1 :=
    match gc_finalizer w.L u with
    | some (Value.cfunction f) => (lua_call E f [Value.userdata u] w).1
    | _ => w
  { w1 with L := { w1.L with udata := w1.L.udata.set u none } }

/-- Releasing a list of handles, one collection each. -/
def release_all (E : Engine) (hs : List Nat) (w : World) : World :=
  hs.foldl (lua_collect E) w

/-- The scenario of `n` calls `linception.newstate()`: the handles that were returned, in the
order of their creation, and the world after the last call. A call that raised an error
contributes no handle. -/
def create_handles (E : Engine) : Nat → World → World × List Nat
  | 0, w => (w, [])
  | n + 1, w =>
      match lua_call E CFn.linc_newstate [] w with
      | (w1, Except.ok [Value.userdata sh]) => ((create_handles E n w1).1, sh :: (create_handles E n w1).2)
      | (w1, _) => create_handles E n w1

/-! ## Vocabulary of the statements -/

/-- The address of the handle a value denotes, when the value is a full userdata that carries
the metatable registered under `LINCEPTION_METATABLE`. -/
def handle_kind (L : lua_State) (v : Option Value) : Option Nat :=
  match v with
  | some (Value.userdata u) =>
      match L.udata[u]?, registry_get L LINCEPTION_METATABLE with
      | some (some d), some (Value.table r) => if d.metatable = some r then some u else none
      | _, _ => none
  | _ => none

/-- The userdata at address `sh` is an open handle: it is of the recognised kind and its
slot points to the live child state `c` at address `p`. -/
def live_handle (w : World) (sh p : Nat) (c : lua_State) : Prop :=
  handle_kind w.L (some (Value.userdata sh)) = some sh ∧
  (handle_at w.L sh).child = some p ∧
  w.children[p]? = some c

/-- Lua errors, which a protected call in the parent catches, as opposed to undefined
behaviour of the C program. -/
def Fault.catchable : Fault → Bool
  | Fault.argerror _ _ => true
  | Fault.error _ => true
  | Fault.errmem => true
  | Fault.nullcall => false
  | Fault.badstate => false
  | Fault.badread => false

/-- What a `dostring` of `code` leaves on the stack of the child `c`: the compiler's message
when the code does not compile, the error value when the chunk faults, the values the chunk
returns otherwise. -/
def leftover (E : Engine) (c : lua_State) (code : String) : List Value :=
  match E.compile c code "parent" with
  | Except.error msg => [msg]
  | Except.ok f =>
      match (E.exec c f).2 with
      | Except.error e => [e]
      | Except.ok results => results

/-- A small engine for concrete runs: `x = = =` does not compile, `error()` compiles to a
chunk that faults, `return 1, 2` to one that returns two values, everything else to a chunk
that returns nothing; memory is never refused and installers leave no trace of their own. -/
def toyEngine : Engine :=
  { number2str := fun n => toString n,
    newuserdata_ok := fun _ => true,
    newstate_ok := fun _ => true,
    compile := fun _ code _ =>
      if code = "x = = =" then Except.error (Value.string "syntax error")
      else if code = "error()" then Except.ok (Value.lfunction 1)
      else if code = "return 1, 2" then Except.ok (Value.lfunction 2)
      else Except.ok (Value.lfunction 0),
    exec := fun c f =>
      if f = Value.lfunction 1 then (c.globals, Except.error (Value.string "boom"))
      else if f = Value.lfunction 2 then (c.globals, Except.ok [Value.number 1, Value.number 2])
      else (c.globals, Except.ok []),
    installer := fun _ c => c }

/-- A parent state right after `require "linception"`, with no child yet. -/
def world0 : World :=
  { L := lua_pop (luaopen_linception (fresh_state 7 8)).1 1, children := [] }

/-- The world after one `linception.newstate()` in `world0`: handle 0 owns child 0. -/
def world1 : World :=
  (lua_call toyEngine CFn.linc_newstate [] world0).1

/-- The world after a `linception.newstate()` in `world0` that failed because the engine
refused the memory of the child state: the handle at address 0 was allocated and carries the
metatable, and its slot is empty. -/
def world_closed : World :=
  (lua_call { toyEngine with newstate_ok := fun _ => false } CFn.linc_newstate [] world0).1

deriving instance DecidableEq for Except

/-- A name that is none of the nine but reads as "base" up to its first NUL byte. -/
def base_nul_x : String := "base" ++ String.singleton (Char.ofNat 0) ++ "x"

/-- The metatable a new handle receives: the table registered under `LINCEPTION_METATABLE`,
none when nothing or something else is registered there. -/
def handle_metatable (L : lua_State) : Option Nat :=
  match registry_get L LINCEPTION_METATABLE with
  | some (Value.table r) => some r
  | _ => none

/-- The parent state once a handle with the given slot has been allocated in it. -/
def with_handle (L : lua_State) (slot : Option Nat) : lua_State :=
  { L with udata := L.udata ++ [some { block := { child := slot }, metatable := handle_metatable L }] }

/-- The world in which `linc_newstate` asks for the child state: the handle is allocated,
its slot is empty, and the frame holds the arguments and the handle. -/
def newstate_mid (w : World) (args : List Value) : World :=
  { L := { with_handle w.L none with stack := args ++ [Value.userdata w.L.udata.length] },
    children := w.children }

/-- The handle metatable as `linc_install_metatable` fills it, for the table reference `m`. -/
def installed_metatable (m : Nat) : List (Value × Value) :=
  [ (Value.string "openlib", Value.cfunction CFn.linc_state_openlib),
    (Value.string "dostring", Value.cfunction CFn.linc_state_dostring),
    (Value.string "__index", Value.table m) ]

/-- The table registered for handles is the table `m`, and it has no `__gc` entry. -/
def no_release_step (L : lua_State) (m : Nat) : Prop :=
  registry_get L LINCEPTION_METATABLE = some (Value.table m) ∧
  (L.tables[m]?).map (fun t => table_get t (Value.string "__gc")) = some none

/-! ## Basic facts about the stack -/

theorem index2value_one (st : lua_State) : index2value st 1 = st.stack[0]? := by
  simp [index2value, absindex]

theorem index2value_two (st : lua_State) : index2value st 2 = st.stack[1]? := by
  simp [index2value, absindex]

theorem index2value_top (st : lua_State) (v : Value) :
    index2value (lua_push st v) (-1) = some v := by
  have h : ((st.stack.length : Int) + 1 + 1 + -1).toNat = st.stack.length + 1 := by omega
  simp [index2value, absindex, lua_push, h]

theorem lua_pop_push (st : lua_State) (v : Value) : lua_pop (lua_push st v) 1 = st := by
  cases st
  simp [lua_pop, lua_push]

theorem enter_L_stack (w : World) (args : List Value) : (enter w args).L.stack = args := rfl

theorem enter_children (w : World) (args : List Value) : (enter w args).children = w.children := rfl

theorem leave_enter (w : World) (args : List Value) (cs : List lua_State) :
    ({ children := cs, L := { (enter w args).L with stack := w.L.stack } } : World)
      = { w with children := cs } := by
  cases w with
  | mk L children => cases L; rfl

/-- The check of argument 1 by `luaL_checkudata` accepts exactly the handles. -/
theorem checkudata_kind (L : lua_State) :
    luaL_checkudata L 1 LINCEPTION_METATABLE =
      match handle_kind L (index2value L 1) with
      | some u => Except.ok (some u)
      | none => Except.error (luaL_typerror L 1 LINCEPTION_METATABLE) := by
  simp only [luaL_checkudata, handle_kind, Nat.cast_one]
  cases h1 : index2value L 1 with
  | none => rfl
  | some v =>
      cases v with
      | userdata u =>
          simp only
          cases h2 : L.udata[u]? with
          | none => rfl
          | some o =>
              cases o with
              | none => rfl
              | some d =>
                  rcases d with ⟨blk, mt⟩
                  cases h3 : registry_get L LINCEPTION_METATABLE with
                  | none => cases mt <;> rfl
                  | some r =>
                      cases r <;> cases mt <;> simp
                      split_ifs <;> rfl
      | _ => rfl

/-- The guard in terms of the kind of argument 1 and of the slot of the handle. -/
theorem check_state_handle_eq (L : lua_State) :
    linc_check_state_handle L =
      match handle_kind L (index2value L 1) with
      | none => Except.error (luaL_typerror L 1 LINCEPTION_METATABLE)
      | some sh =>
          if (handle_at L sh).child = none then
            Except.error (Fault.argerror 1 "state has been closed")
          else Except.ok sh := by
  simp only [linc_check_state_handle, checkudata_kind]
  cases handle_kind L (index2value L 1) with
  | none => rfl
  | some sh => by_cases h : (handle_at L sh).child = none <;> simp [h]

/-- An open handle passes `linc_check_state_handle`, whatever the other arguments are. -/
theorem check_live (w : World) (sh p : Nat) (c : lua_State) (rest : List Value)
    (h : live_handle w sh p c) :
    linc_check_state_handle (enter w (Value.userdata sh :: rest)).L = Except.ok sh ∧
      (handle_at (enter w (Value.userdata sh :: rest)).L sh).child = some p := by
  obtain ⟨hk, hs, _⟩ := h
  have hk2 : handle_kind (enter w (Value.userdata sh :: rest)).L (some (Value.userdata sh))
      = some sh := hk
  have hs2 : (handle_at (enter w (Value.userdata sh :: rest)).L sh).child = some p := hs
  refine ⟨?_, hs2⟩
  have h1 : index2value (enter w (Value.userdata sh :: rest)).L 1 = some (Value.userdata sh) := by
    simp [index2value_one, enter_L_stack]
  rw [check_state_handle_eq, h1, hk2]
  simp [hs2]

/-! ## The installer: `linc_state_openlib` -/

/-- The option lookup on a string argument 2 is the search of that string in the list. -/
theorem checkoption_string (E : Engine) (L : lua_State) (name d : String)
    (lst : List (Option String)) (h : index2value L 2 = some (Value.string name)) :
    luaL_checkoption E L 2 d lst =
      match find_option name lst 0 with
      | some i => Except.ok i
      | none =>
          Except.error (Fault.argerror 2
            ("invalid option " ++ String.singleton (Char.ofNat 39) ++ cstr name
              ++ String.singleton (Char.ofNat 39))) := by
  simp [luaL_checkoption, luaL_optstring, luaL_checklstring, lua_tolstring, h]

/-- The option lookup on an absent or nil argument 2 is the search of the default. -/
theorem checkoption_default (E : Engine) (L : lua_State) (d : String) (i : Nat)
    (lst : List (Option String))
    (h : index2value L 2 = none ∨ index2value L 2 = some Value.nil)
    (hd : find_option d lst 0 = some i) :
    luaL_checkoption E L 2 d lst = Except.ok i := by
  rcases h with h | h <;> simp [luaL_checkoption, luaL_optstring, h, hd]

/-- On an open handle, `openlib` is decided by the option lookup and the opener table. -/
theorem openlib_live (E : Engine) (w : World) (sh p : Nat) (c : lua_State) (rest : List Value)
    (h : live_handle w sh p c) :
    lua_call E CFn.linc_state_openlib (Value.userdata sh :: rest) w =
      match luaL_checkoption E (enter w (Value.userdata sh :: rest)).L 2 "base"
          linc_library_names with
      | Except.error e => (w, Except.error e)
      | Except.ok i =>
          match linc_library_openers[i]? with
          | none => (w, Except.error Fault.badread)
          | some none => (w, Except.error Fault.nullcall)
          | some (some op) =>
              ({ w with children := w.children.set p (call_opener E op c).1 }, Except.ok []) := by
  obtain ⟨hc, hp⟩ := check_live w sh p c rest h
  have hchild : (enter w (Value.userdata sh :: rest)).children[p]? = some c := h.2.2
  have hw : ({ (enter w (Value.userdata sh :: rest)) with
      L := { (enter w (Value.userdata sh :: rest)).L with stack := w.L.stack } } : World) = w := by
    cases w with
    | mk L children => cases L; rfl
  simp only [lua_call, call_cfunction, linc_state_openlib, hc, hp]
  cases hopt : luaL_checkoption E (enter w (Value.userdata sh :: rest)).L 2 "base"
      linc_library_names with
  | error e => simp [hw]
  | ok i =>
      cases hop : linc_library_openers[i]? with
      | none => simp [hop, hw]
      | some o =>
          cases o with
          | none => simp [hop, hw]
          | some op =>
              simp only [hop, on_child, hchild]
              simp [leave_enter, enter_children]

/-- The outcome of `h:openlib(name, ...)` on an open handle, by the position of the name. -/
theorem openlib_named (E : Engine) (w : World) (sh p : Nat) (c : lua_State) (name : String)
    (rest : List Value) (h : live_handle w sh p c) :
    lua_call E CFn.linc_state_openlib (Value.userdata sh :: Value.string name :: rest) w =
      match find_option name linc_library_names 0 with
      | none =>
          (w, Except.error (Fault.argerror 2
            ("invalid option " ++ String.singleton (Char.ofNat 39) ++ cstr name
              ++ String.singleton (Char.ofNat 39))))
      | some i =>
          match linc_library_openers[i]? with
          | none => (w, Except.error Fault.badread)
          | some none => (w, Except.error Fault.nullcall)
          | some (some op) =>
              ({ w with children := w.children.set p (call_opener E op c).1 }, Except.ok []) := by
  have h2 : index2value (enter w (Value.userdata sh :: Value.string name :: rest)).L 2
      = some (Value.string name) := by
    simp [index2value_two, enter_L_stack]
  rw [openlib_live E w sh p c _ h, checkoption_string E _ name "base" _ h2]
  cases find_option name linc_library_names 0 <;> rfl

/-- The lookup finds nothing exactly for the names whose C string is none of the nine. -/
theorem find_option_unknown (name : String) (hn : some (cstr name) ∉ linc_library_names) :
    find_option name linc_library_names 0 = none := by
  have e0 : cstr "base" = "base" := by decide
  have e1 : cstr "coroutine" = "coroutine" := by decide
  have e2 : cstr "math" = "math" := by decide
  have e3 : cstr "string" = "string" := by decide
  have e4 : cstr "table" = "table" := by decide
  have e5 : cstr "io" = "io" := by decide
  have e6 : cstr "os" = "os" := by decide
  have e7 : cstr "package" = "package" := by decide
  have e8 : cstr "debug" = "debug" := by decide
  simp only [linc_library_names, LUA_COLIBNAME, LUA_MATHLIBNAME, LUA_STRLIBNAME, LUA_TABLIBNAME,
    LUA_IOLIBNAME, LUA_OSLIBNAME, LUA_LOADLIBNAME, LUA_DBLIBNAME, List.mem_cons, Option.some.injEq,
    List.mem_singleton, not_or] at hn
  obtain ⟨n0, n1, n2, n3, n4, n5, n6, n7, n8, _⟩ := hn
  simp only [find_option, linc_library_names, LUA_COLIBNAME, LUA_MATHLIBNAME, LUA_STRLIBNAME,
    LUA_TABLIBNAME, LUA_IOLIBNAME, LUA_OSLIBNAME, LUA_LOADLIBNAME, LUA_DBLIBNAME,
    e0, e1, e2, e3, e4, e5, e6, e7, e8]
  simp [Ne.symm n0, Ne.symm n1, Ne.symm n2, Ne.symm n3, Ne.symm n4, Ne.symm n5, Ne.symm n6,
    Ne.symm n7, Ne.symm n8]

/-- Every index the lookup can return is at most 8. -/
theorem find_option_le (name : String) (i : Nat)
    (h : find_option name linc_library_names 0 = some i) : i ≤ 8 := by
  simp only [find_option, linc_library_names] at h
  split_ifs at h <;> simp at h <;> omega

/-- In `world1` the handle at address 0 is open and owns the fresh child at address 0. -/
theorem world1_live : live_handle world1 0 0 (fresh_state 7 8) := by
  refine ⟨by decide, by decide, by decide⟩

/-- C1 (what the code does for each of the nine names): on an open handle, `openlib` runs
`luaopen_base` for "base", but for every later name it runs the installer of the name that
follows it in the list of names, because the opener table has no entry for "coroutine":
"coroutine" runs `luaopen_math`, "math" runs `luaopen_string`, "string" runs `luaopen_table`,
"table" runs `luaopen_io`, "io" runs `luaopen_os`, "os" runs `luaopen_package`, "package"
runs `luaopen_debug`, and "debug" calls through the NULL entry that ends the table. -/
theorem openlib_runs_next_installer (E : Engine) (w : World) (sh p : Nat) (c : lua_State)
    (rest : List Value) (h : live_handle w sh p c) :
    let run := fun (name : String) =>
      lua_call E CFn.linc_state_openlib (Value.userdata sh :: Value.string name :: rest) w
    let done := fun (op : Opener) =>
      (({ w with children := w.children.set p (call_opener E op c).1 } : World),
        (Except.ok [] : Except Fault (List Value)))
    run "base" = done Opener.luaopen_base ∧
    run "coroutine" = done Opener.luaopen_math ∧
    run "math" = done Opener.luaopen_string ∧
    run "string" = done Opener.luaopen_table ∧
    run "table" = done Opener.luaopen_io ∧
    run "io" = done Opener.luaopen_os ∧
    run "os" = done Opener.luaopen_package ∧
    run "package" = done Opener.luaopen_debug ∧
    run "debug" = (w, Except.error Fault.nullcall) := by
  intro run done
  have f0 : find_option "base" linc_library_names 0 = some 0 := by decide
  have f1 : find_option "coroutine" linc_library_names 0 = some 1 := by decide
  have f2 : find_option "math" linc_library_names 0 = some 2 := by decide
  have f3 : find_option "string" linc_library_names 0 = some 3 := by decide
  have f4 : find_option "table" linc_library_names 0 = some 4 := by decide
  have f5 : find_option "io" linc_library_names 0 = some 5 := by decide
  have f6 : find_option "os" linc_library_names 0 = some 6 := by decide
  have f7 : find_option "package" linc_library_names 0 = some 7 := by decide
  have f8 : find_option "debug" linc_library_names 0 = some 8 := by decide
  refine ⟨?_, ?_, ?_, ?_, ?_, ?_, ?_, ?_, ?_⟩
  · show lua_call E _ _ w = _
    rw [openlib_named E w sh p c _ rest h, f0]; rfl
  · show lua_call E _ _ w = _
    rw [openlib_named E w sh p c _ rest h, f1]; rfl
  · show lua_call E _ _ w = _
    rw [openlib_named E w sh p c _ rest h, f2]; rfl
  · show lua_call E _ _ w = _
    rw [openlib_named E w sh p c _ rest h, f3]; rfl
  · show lua_call E _ _ w = _
    rw [openlib_named E w sh p c _ rest h, f4]; rfl
  · show lua_call E _ _ w = _
    rw [openlib_named E w sh p c _ rest h, f5]; rfl
  · show lua_call E _ _ w = _
    rw [openlib_named E w sh p c _ rest h, f6]; rfl
  · show lua_call E _ _ w = _
    rw [openlib_named E w sh p c _ rest h, f7]; rfl
  · show lua_call E _ _ w = _
    rw [openlib_named E w sh p c _ rest h, f8]; rfl

/-- Witness: in `world1`, `h:openlib("math")` leaves the
child with `luaopen_string` run on it. -/
theorem openlib_runs_next_installer_witness :
    live_handle world1 0 0 (fresh_state 7 8) ∧
    lua_call toyEngine CFn.linc_state_openlib [Value.userdata 0, Value.string "math"] world1 =
      ({ world1 with children :=
          world1.children.set 0 (call_opener toyEngine Opener.luaopen_string (fresh_state 7 8)).1 },
        Except.ok []) :=
  ⟨world1_live, (openlib_runs_next_installer toyEngine world1 0 0 (fresh_state 7 8) []
    world1_live).2.2.1⟩

/-- C10 (what the code does): every index the name lookup returns lies inside the opener
table, which has nine entries, and the entries 0 to 7 are functions; but the index of
"debug" is 8, the entry there is the NULL that ends the table, and `openlib` on an open
handle with that name calls through it. -/
theorem opener_table_null_at_debug :
    (∀ name i, find_option name linc_library_names 0 = some i → i < linc_library_openers.length) ∧
    (∀ i, i < 8 → ∃ op, linc_library_openers[i]? = some (some op)) ∧
    find_option "debug" linc_library_names 0 = some 8 ∧
    linc_library_openers[8]? = some none ∧
    lua_call toyEngine CFn.linc_state_openlib [Value.userdata 0, Value.string "debug"] world1 =
      (world1, Except.error Fault.nullcall) := by
  refine ⟨?_, ?_, by decide, by decide, by decide⟩
  · intro name i h
    have := find_option_le name i h
    simp only [linc_library_openers, List.length_cons, List.length_nil]
    omega
  · intro i hi
    interval_cases i <;> simp [linc_library_openers]

/-- Witness: the lookup of "debug" returns 8, which lies inside the opener table. -/
theorem opener_table_null_at_debug_witness :
    find_option "debug" linc_library_names 0 = some 8 ∧ 8 < linc_library_openers.length :=
  ⟨by decide, opener_table_null_at_debug.1 "debug" 8 (by decide)⟩

/-- C5 (counterexample): the string made of "base", a NUL byte and "x" is not one of the nine
library names, yet `openlib` with it on an open handle raises no error and runs
`luaopen_base` on the child. -/
theorem openlib_accepts_name_cut_at_nul :
    some base_nul_x ∉ linc_library_names ∧
    lua_call toyEngine CFn.linc_state_openlib [Value.userdata 0, Value.string base_nul_x] world1 =
      ({ world1 with children := [{ fresh_state 7 8 with opened := [Opener.luaopen_base] }] },
        Except.ok []) := by
  constructor <;> decide

/-- C5 (amended): for every open handle and every string whose C string (the bytes before
its first NUL) is none of the nine library names, `openlib` fails with an argument error on
argument 2 and leaves the world as it was: no installer ran, the child is unchanged, and
every later call behaves as if the installation had not been attempted. -/
theorem openlib_rejects_unknown_name (E : Engine) (w : World) (sh p : Nat) (c : lua_State)
    (name : String) (rest : List Value) (h : live_handle w sh p c)
    (hn : some (cstr name) ∉ linc_library_names) :
    lua_call E CFn.linc_state_openlib (Value.userdata sh :: Value.string name :: rest) w =
      (w, Except.error (Fault.argerror 2
        ("invalid option " ++ String.singleton (Char.ofNat 39) ++ cstr name
          ++ String.singleton (Char.ofNat 39)))) ∧
    ∀ f args,
      lua_call E f args
        (lua_call E CFn.linc_state_openlib (Value.userdata sh :: Value.string name :: rest) w).1
        = lua_call E f args w := by
  have key := openlib_named E w sh p c name rest h
  rw [find_option_unknown name hn] at key
  refine ⟨key, ?_⟩
  intro f args
  rw [key]

/-- Witness: the name "network" in `world1`. -/
theorem openlib_rejects_unknown_name_witness :
    live_handle world1 0 0 (fresh_state 7 8) ∧ some (cstr "network") ∉ linc_library_names ∧
    lua_call toyEngine CFn.linc_state_openlib [Value.userdata 0, Value.string "network"] world1 =
      (world1, Except.error (Fault.argerror 2
        ("invalid option " ++ String.singleton (Char.ofNat 39) ++ cstr "network"
          ++ String.singleton (Char.ofNat 39)))) :=
  ⟨world1_live, by decide,
    (openlib_rejects_unknown_name toyEngine world1 0 0 (fresh_state 7 8) "network" []
      world1_live (by decide)).1⟩

/-- C8: on an open handle, `openlib` with argument 2 absent, with argument 2 nil, and with
the string "base" all have the same outcome: `luaopen_base` is run on the handle's child,
nothing else changes, and no value is returned. -/
theorem openlib_default_is_base (E : Engine) (w : World) (sh p : Nat) (c : lua_State)
    (rest : List Value) (h : live_handle w sh p c) :
    let done : World × Except Fault (List Value) :=
      ({ w with children := w.children.set p (call_opener E Opener.luaopen_base c).1 },
        Except.ok [])
    lua_call E CFn.linc_state_openlib [Value.userdata sh] w = done ∧
    lua_call E CFn.linc_state_openlib (Value.userdata sh :: Value.nil :: rest) w = done ∧
    lua_call E CFn.linc_state_openlib (Value.userdata sh :: Value.string "base" :: rest) w
      = done := by
  intro done
  have f0 : find_option "base" linc_library_names 0 = some 0 := by decide
  refine ⟨?_, ?_, ?_⟩
  · rw [openlib_live E w sh p c _ h,
      checkoption_default E _ "base" 0 _ (Or.inl (by simp [index2value_two, enter_L_stack])) f0]
    rfl
  · rw [openlib_live E w sh p c _ h,
      checkoption_default E _ "base" 0 _ (Or.inr (by simp [index2value_two, enter_L_stack])) f0]
    rfl
  · rw [openlib_named E w sh p c _ rest h, f0]; rfl

/-- Witness: `h:openlib()` in `world1`. -/
theorem openlib_default_is_base_witness :
    live_handle world1 0 0 (fresh_state 7 8) ∧
    lua_call toyEngine CFn.linc_state_openlib [Value.userdata 0] world1 =
      lua_call toyEngine CFn.linc_state_openlib [Value.userdata 0, Value.string "base"] world1 :=
  ⟨world1_live,
    ((openlib_default_is_base toyEngine world1 0 0 (fresh_state 7 8) [] world1_live).1).trans
      ((openlib_default_is_base toyEngine world1 0 0 (fresh_state 7 8) [] world1_live).2.2).symm⟩

/-! ## The executor: `linc_state_dostring` -/

theorem get_set_child (cs : List lua_State) (p : Nat) (c a : lua_State) (h : cs[p]? = some c) :
    (cs.set p a)[p]? = some a := by
  have hp : p < cs.length := by
    by_contra hc
    rw [List.getElem?_eq_none (by omega)] at h
    cases h
  simp [hp]

/-- On an open handle and a string argument, `dostring` is decided by the compiler and by
the execution of the chunk in the child. -/
theorem dostring_live (E : Engine) (w : World) (sh p : Nat) (c : lua_State) (code : String)
    (rest : List Value) (h : live_handle w sh p c) :
    lua_call E CFn.linc_state_dostring (Value.userdata sh :: Value.string code :: rest) w =
      match E.compile c code "parent" with
      | Except.error msg =>
          ({ w with children := w.children.set p (lua_push c msg) },
            Except.ok [Value.boolean false, Value.string "could not compile provided code"])
      | Except.ok f =>
          match E.exec c f with
          | (g, Except.error e) =>
              ({ w with children := w.children.set p { c with globals := g, stack := c.stack ++ [e] } },
                Except.ok [Value.boolean false, Value.string "could not run provided code"])
          | (g, Except.ok results) =>
              ({ w with children :=
                  w.children.set p { c with globals := g, stack := c.stack ++ results } },
                Except.ok [Value.boolean true]) := by
  obtain ⟨hc, hp⟩ := check_live w sh p c (Value.string code :: rest) h
  have hchild : (enter w (Value.userdata sh :: Value.string code :: rest)).children[p]? = some c :=
    h.2.2
  have h2 : luaL_checklstring E (enter w (Value.userdata sh :: Value.string code :: rest)).L 2
      = Except.ok code := by
    simp [luaL_checklstring, lua_tolstring, index2value_two, enter_L_stack]
  simp only [lua_call, call_cfunction, linc_state_dostring, hc, hp, h2, on_child, hchild,
    luaL_loadbuffer]
  cases hcomp : E.compile c code "parent" with
  | error msg =>
      simp only [LUA_ERRSYNTAX, lua_pushboolean, lua_pushliteral, lua_push, enter_L_stack]
      simp [enter_children, leave_enter, enter]
  | ok f =>
      have hget : ((enter w (Value.userdata sh :: Value.string code :: rest)).children.set p
          (lua_push c f))[p]? = some (lua_push c f) := get_set_child _ p c _ hchild
      simp only [hget, lua_pcall, index2value_top, lua_pop_push, Option.getD_some]
      rcases hexec : E.exec c f with ⟨g, r⟩
      cases r with
      | error e =>
          simp only [LUA_ERRRUN, lua_pushboolean, lua_pushliteral, lua_push, enter_L_stack]
          simp [enter_children, enter]
      | ok results =>
          simp only [lua_pushboolean, lua_pushliteral, lua_push, enter_L_stack]
          simp [enter_children, enter]

/-- What `dostring` returns to the parent on an open handle and a source string: `false` and
a fixed message when the source does not compile or its chunk faults, `true` alone when the
chunk runs to its end, whatever values the child produced. -/
theorem dostring_returns (E : Engine) (w : World) (sh p : Nat) (c : lua_State)
    (code : String) (rest : List Value) (h : live_handle w sh p c) :
    (∀ msg, E.compile c code "parent" = Except.error msg →
      (lua_call E CFn.linc_state_dostring (Value.userdata sh :: Value.string code :: rest) w).2
        = Except.ok [Value.boolean false, Value.string "could not compile provided code"]) ∧
    (∀ f g e, E.compile c code "parent" = Except.ok f → E.exec c f = (g, Except.error e) →
      (lua_call E CFn.linc_state_dostring (Value.userdata sh :: Value.string code :: rest) w).2
        = Except.ok [Value.boolean false, Value.string "could not run provided code"]) ∧
    (∀ f g results, E.compile c code "parent" = Except.ok f →
      E.exec c f = (g, Except.ok results) →
      (lua_call E CFn.linc_state_dostring (Value.userdata sh :: Value.string code :: rest) w).2
        = Except.ok [Value.boolean true]) := by
  have key := dostring_live E w sh p c code rest h
  refine ⟨?_, ?_, ?_⟩
  · intro msg hm
    rw [key, hm]
  · intro f g e hf he
    rw [key, hf]
    simp only [he]
  · intro f g results hf he
    rw [key, hf]
    simp only [he]

/-- C2: on an open handle and a source string, a source that does not compile makes
`dostring` return exactly `false` and "could not compile provided code", the child having
received nothing but the compiler's message on its stack (no chunk was run); a source that
compiles and faults when run makes it return exactly `false` and
"could not run provided code". Neither message depends on the engine's diagnostic. -/
theorem dostring_fixed_messages (E : Engine) (w : World) (sh p : Nat) (c : lua_State)
    (code : String) (rest : List Value) (h : live_handle w sh p c) :
    (∀ msg, E.compile c code "parent" = Except.error msg →
      lua_call E CFn.linc_state_dostring (Value.userdata sh :: Value.string code :: rest) w =
        ({ w with children := w.children.set p (lua_push c msg) },
          Except.ok [Value.boolean false, Value.string "could not compile provided code"])) ∧
    (∀ f g e, E.compile c code "parent" = Except.ok f → E.exec c f = (g, Except.error e) →
      lua_call E CFn.linc_state_dostring (Value.userdata sh :: Value.string code :: rest) w =
        ({ w with children := w.children.set p { c with globals := g, stack := c.stack ++ [e] } },
          Except.ok [Value.boolean false, Value.string "could not run provided code"])) := by
  constructor
  · intro msg hm
    rw [dostring_live E w sh p c code rest h, hm]
  · intro f g e hf he
    rw [dostring_live E w sh p c code rest h, hf]
    simp only [he]

/-- Witness: `x = = =` and `error()` in `world1`. -/
theorem dostring_fixed_messages_witness :
    live_handle world1 0 0 (fresh_state 7 8) ∧
    (lua_call toyEngine CFn.linc_state_dostring [Value.userdata 0, Value.string "x = = ="]
        world1).2
      = Except.ok [Value.boolean false, Value.string "could not compile provided code"] ∧
    (lua_call toyEngine CFn.linc_state_dostring [Value.userdata 0, Value.string "error()"]
        world1).2
      = Except.ok [Value.boolean false, Value.string "could not run provided code"] :=
  ⟨world1_live,
    congrArg Prod.snd
      ((dostring_fixed_messages toyEngine world1 0 0 (fresh_state 7 8) "x = = =" []
        world1_live).1 (Value.string "syntax error") (by decide)),
    congrArg Prod.snd
      ((dostring_fixed_messages toyEngine world1 0 0 (fresh_state 7 8) "error()" []
        world1_live).2 (Value.lfunction 1) [] (Value.string "boom") (by decide) (by decide))⟩

/-- C3 (counterexample): in `world1` the source `x = 1` compiles and runs without fault, and
`dostring` returns one value, `true`, not a pair. -/
theorem dostring_success_returns_one_value :
    (lua_call toyEngine CFn.linc_state_dostring [Value.userdata 0, Value.string "x = 1"]
        world1).2 = Except.ok [Value.boolean true] ∧
    ¬ ∃ a b,
      (lua_call toyEngine CFn.linc_state_dostring [Value.userdata 0, Value.string "x = 1"]
        world1).2 = Except.ok [a, b] := by
  have h : (lua_call toyEngine CFn.linc_state_dostring
      [Value.userdata 0, Value.string "x = 1"] world1).2 = Except.ok [Value.boolean true] := by
    decide
  refine ⟨h, ?_⟩
  rintro ⟨a, b, hab⟩
  rw [h] at hab
  simp at hab

/-- C3 (amended): on an open handle and a source string, `dostring` never raises an error in
the parent. It returns exactly the two values `false` and "could not compile provided code"
when the source does not compile, exactly the two values `false` and
"could not run provided code" when the chunk faults, and exactly one value, `true`, when the
source compiles and runs without fault. -/
theorem dostring_never_raises (E : Engine) (w : World) (sh p : Nat) (c : lua_State)
    (code : String) (rest : List Value) (h : live_handle w sh p c) :
    let r := lua_call E CFn.linc_state_dostring (Value.userdata sh :: Value.string code :: rest) w
    (r.2 = Except.ok [Value.boolean true] ∨
      r.2 = Except.ok [Value.boolean false, Value.string "could not compile provided code"] ∨
      r.2 = Except.ok [Value.boolean false, Value.string "could not run provided code"]) ∧
    (∀ f g results, E.compile c code "parent" = Except.ok f →
      E.exec c f = (g, Except.ok results) → r.2 = Except.ok [Value.boolean true]) ∧
    (∀ msg, E.compile c code "parent" = Except.error msg →
      r.2 = Except.ok [Value.boolean false, Value.string "could not compile provided code"]) ∧
    (∀ f g e, E.compile c code "parent" = Except.ok f → E.exec c f = (g, Except.error e) →
      r.2 = Except.ok [Value.boolean false, Value.string "could not run provided code"]) ∧
    (∀ e, r.2 ≠ Except.error e) := by
  intro r
  obtain ⟨hcompile, hrun, hok⟩ := dostring_returns E w sh p c code rest h
  have hshape : r.2 = Except.ok [Value.boolean true] ∨
      r.2 = Except.ok [Value.boolean false, Value.string "could not compile provided code"] ∨
      r.2 = Except.ok [Value.boolean false, Value.string "could not run provided code"] := by
    cases hcomp : E.compile c code "parent" with
    | error msg => exact Or.inr (Or.inl (hcompile msg hcomp))
    | ok f =>
        rcases hexec : E.exec c f with ⟨g, x⟩
        cases x with
        | error e => exact Or.inr (Or.inr (hrun f g e hcomp hexec))
        | ok results => exact Or.inl (hok f g results hcomp hexec)
  refine ⟨hshape, hok, hcompile, hrun, ?_⟩
  intro e he
  rcases hshape with h1 | h1 | h1 <;> rw [h1] at he <;> cases he

/-- Witness: the sources `return 1, 2`, `x = = =` and `error()` in `world1`. -/
theorem dostring_never_raises_witness :
    live_handle world1 0 0 (fresh_state 7 8) ∧
    (lua_call toyEngine CFn.linc_state_dostring [Value.userdata 0, Value.string "return 1, 2"]
        world1).2 = Except.ok [Value.boolean true] ∧
    (lua_call toyEngine CFn.linc_state_dostring [Value.userdata 0, Value.string "x = = ="]
        world1).2
      = Except.ok [Value.boolean false, Value.string "could not compile provided code"] ∧
    (lua_call toyEngine CFn.linc_state_dostring [Value.userdata 0, Value.string "error()"]
        world1).2
      = Except.ok [Value.boolean false, Value.string "could not run provided code"] :=
  ⟨world1_live,
    (dostring_never_raises toyEngine world1 0 0 (fresh_state 7 8) "return 1, 2" []
      world1_live).2.1 (Value.lfunction 2) [] [Value.number 1, Value.number 2]
      (by decide) (by decide),
    (dostring_never_raises toyEngine world1 0 0 (fresh_state 7 8) "x = = =" []
      world1_live).2.2.1 (Value.string "syntax error") (by decide),
    (dostring_never_raises toyEngine world1 0 0 (fresh_state 7 8) "error()" []
      world1_live).2.2.2.1 (Value.lfunction 1) [] (Value.string "boom") (by decide) (by decide)⟩

/-- C9 (counterexample): in `world1` the child's stack is empty; after a `dostring` of a
source that does not compile it holds the compiler's message, after one whose chunk faults
it holds the error value, and after one that returns two values it holds both. -/
theorem dostring_grows_child_stack :
    world1.children.map (fun c => c.stack) = [[]] ∧
    (lua_call toyEngine CFn.linc_state_dostring [Value.userdata 0, Value.string "x = = ="]
        world1).1.children.map (fun c => c.stack) = [[Value.string "syntax error"]] ∧
    (lua_call toyEngine CFn.linc_state_dostring [Value.userdata 0, Value.string "error()"]
        world1).1.children.map (fun c => c.stack) = [[Value.string "boom"]] ∧
    (lua_call toyEngine CFn.linc_state_dostring [Value.userdata 0, Value.string "return 1, 2"]
        world1).1.children.map (fun c => c.stack) = [[Value.number 1, Value.number 2]] := by
  refine ⟨by decide, by decide, by decide, by decide⟩

/-- C9 (amended): the values produced in the child are not passed to the parent: what
`dostring` returns is `true` alone, or `false` and one of the two fixed messages, whatever
the compiler's message, the error value or the values returned by the chunk are, and the
parent's state is the same after the call. But these values stay on the child's stack:
after `dostring` on an open handle and a source string the child's stack is its old content
followed by what the call left (the compiler's message, or the error value, or all values
the chunk returned), so its height is unchanged only when the source compiles and its chunk
returns no value. -/
theorem dostring_child_stack (E : Engine) (w : World) (sh p : Nat) (c : lua_State)
    (code : String) (rest : List Value) (h : live_handle w sh p c) :
    let r := lua_call E CFn.linc_state_dostring (Value.userdata sh :: Value.string code :: rest) w
    r.1.L = w.L ∧
    (r.1.children[p]?).map (fun c1 => c1.stack) = some (c.stack ++ leftover E c code) ∧
    r.1.children.length = w.children.length ∧
    (leftover E c code = [] ↔
      ∃ f g, E.compile c code "parent" = Except.ok f ∧ E.exec c f = (g, Except.ok [])) ∧
    (∀ msg, E.compile c code "parent" = Except.error msg →
      r.2 = Except.ok [Value.boolean false, Value.string "could not compile provided code"] ∧
      (r.1.children[p]?).map (fun c1 => c1.stack) = some (c.stack ++ [msg])) ∧
    (∀ f g e, E.compile c code "parent" = Except.ok f → E.exec c f = (g, Except.error e) →
      r.2 = Except.ok [Value.boolean false, Value.string "could not run provided code"] ∧
      (r.1.children[p]?).map (fun c1 => c1.stack) = some (c.stack ++ [e])) ∧
    (∀ f g results, E.compile c code "parent" = Except.ok f →
      E.exec c f = (g, Except.ok results) →
      r.2 = Except.ok [Value.boolean true] ∧
      (r.1.children[p]?).map (fun c1 => c1.stack) = some (c.stack ++ results)) := by
  intro r
  have hleft : leftover E c code = [] ↔
      ∃ f g, E.compile c code "parent" = Except.ok f ∧ E.exec c f = (g, Except.ok []) := by
    unfold leftover
    cases hcomp : E.compile c code "parent" with
    | error msg => simp
    | ok f =>
        rcases hexec : E.exec c f with ⟨g, x⟩
        cases x <;> simp [hexec]
  have h3 : (lua_call E CFn.linc_state_dostring
        (Value.userdata sh :: Value.string code :: rest) w).1.L = w.L ∧
      Option.map (fun c1 => c1.stack) ((lua_call E CFn.linc_state_dostring
        (Value.userdata sh :: Value.string code :: rest) w).1.children[p]?)
        = some (c.stack ++ leftover E c code) ∧
      (lua_call E CFn.linc_state_dostring
        (Value.userdata sh :: Value.string code :: rest) w).1.children.length
        = w.children.length := by
    have key := dostring_live E w sh p c code rest h
    have hp : p < w.children.length := by
      by_contra hc
      have h2 := h.2.2
      rw [List.getElem?_eq_none (by omega)] at h2
      cases h2
    rw [key]
    unfold leftover
    cases hcomp : E.compile c code "parent" with
    | error msg => simp [hp, lua_push]
    | ok f =>
        rcases hexec : E.exec c f with ⟨g, x⟩
        cases x <;> simp [hexec, hp]
  obtain ⟨hcompile, hrun, hok⟩ := dostring_returns E w sh p c code rest h
  have hstack := h3.2.1
  refine ⟨h3.1, hstack, h3.2.2, hleft, ?_, ?_, ?_⟩
  · intro msg hm
    refine ⟨hcompile msg hm, ?_⟩
    have hl : leftover E c code = [msg] := by simp [leftover, hm]
    rw [← hl]; exact hstack
  · intro f g e hf he
    refine ⟨hrun f g e hf he, ?_⟩
    have hl : leftover E c code = [e] := by simp [leftover, hf, he]
    rw [← hl]; exact hstack
  · intro f g results hf he
    refine ⟨hok f g results hf he, ?_⟩
    have hl : leftover E c code = results := by simp [leftover, hf, he]
    rw [← hl]; exact hstack

/-- Witness: the sources `x = = =` and `return 1, 2` in `world1`. -/
theorem dostring_child_stack_witness :
    live_handle world1 0 0 (fresh_state 7 8) ∧
    ((lua_call toyEngine CFn.linc_state_dostring [Value.userdata 0, Value.string "x = = ="]
        world1).1.children[0]?).map (fun c1 => c1.stack)
      = some ((fresh_state 7 8).stack ++ leftover toyEngine (fresh_state 7 8) "x = = =") ∧
    ((lua_call toyEngine CFn.linc_state_dostring [Value.userdata 0, Value.string "return 1, 2"]
        world1).2 = Except.ok [Value.boolean true] ∧
      ((lua_call toyEngine CFn.linc_state_dostring
          [Value.userdata 0, Value.string "return 1, 2"] world1).1.children[0]?).map
          (fun c1 => c1.stack)
        = some ((fresh_state 7 8).stack ++ [Value.number 1, Value.number 2])) :=
  ⟨world1_live,
    (dostring_child_stack toyEngine world1 0 0 (fresh_state 7 8) "x = = =" [] world1_live).2.1,
    (dostring_child_stack toyEngine world1 0 0 (fresh_state 7 8) "return 1, 2" []
      world1_live).2.2.2.2.2.2 (Value.lfunction 2) [] [Value.number 1, Value.number 2]
      (by decide) (by decide)⟩

/-! ## The factory: `linc_newstate` -/

theorem take_snoc2 (xs : List Value) (a b : Value) :
    List.take (xs.length + 1) (xs ++ [a, b]) = xs ++ [a] := by
  induction xs with
  | nil => rfl
  | cons x xs ih => simpa using ih

theorem getElem_opt_snoc2 (xs : List Value) (a b : Value) :
    (xs ++ [a, b])[xs.length]? = some a := by
  induction xs with
  | nil => rfl
  | cons x xs ih => simpa using ih

theorem index2value_neg1 (st : lua_State) : index2value st (-1) = st.stack.getLast? := by
  rcases List.eq_nil_or_concat st.stack with h | ⟨xs, a, h⟩
  · simp [index2value, absindex, h]
  · have e : ((xs.length : Int) + 1 + 1 + -1).toNat = xs.length + 1 := by omega
    simp [index2value, absindex, h, e]

theorem index2value_neg2 (st : lua_State) : index2value st (-2) = st.stack.dropLast.getLast? := by
  rcases List.eq_nil_or_concat st.stack with h | ⟨xs, a, h⟩
  · simp [index2value, absindex, h]
  · rcases List.eq_nil_or_concat xs with h2 | ⟨ys, b, h2⟩
    · simp [index2value, absindex, h, h2]
    · have e : ((ys.length : Int) + 2 + 1 + -2).toNat = ys.length + 1 := by omega
      subst h2
      have g := getElem_opt_snoc2 ys b a
      simp only [index2value, absindex, h, List.concat_eq_append, List.append_assoc,
        List.singleton_append, List.length_append, List.length_cons, List.length_nil]
      have e2 : ¬ (0 : Int) < -2 := by omega
      have e3 : (((ys.length + (0 + 1 + 1) : Nat) : Int) + 1 + -2).toNat = ys.length + 1 := by
        push_cast; omega
      simp only [e2, if_false, e3]
      rw [g]
      simp

theorem getElem_opt_snoc (xs : List (Option UData)) (x : Option UData) :
    (xs ++ [x])[xs.length]? = some x := by
  simp

theorem set_snoc (xs : List (Option UData)) (x y : Option UData) :
    (xs ++ [x]).set xs.length y = xs ++ [y] := by
  simp

theorem newuserdata_ok_eq (E : Engine) (w : World) (h : E.newuserdata_ok w = true) :
    lua_newuserdata E w =
      Except.ok
        ({ w with L := (lua_push
            { w.L with udata := w.L.udata ++ [some { block := { child := none }, metatable := none }] }
            (Value.userdata w.L.udata.length)) }, some w.L.udata.length) := by
  simp [lua_newuserdata, h]

/-- The allocation of the handle in `linc_newstate`, up to the creation of the child: the
frame holds the arguments and the new userdata, whose slot is empty and whose metatable is
the registered one. -/
theorem newstate_handle_step (L : lua_State) :
    lua_setmetatable
      (luaL_getmetatable
        (set_child
          (lua_push
            { L with udata := L.udata ++ [some { block := { child := none }, metatable := none }] }
            (Value.userdata L.udata.length))
          L.udata.length none)
        LINCEPTION_METATABLE)
      (-2)
      = { with_handle L none with stack := L.stack ++ [Value.userdata L.udata.length] } := by
  cases L with
  | mk allocf allocud stack registry tables udata globals opened =>
    simp only [set_child, lua_push, getElem_opt_snoc, set_snoc, luaL_getmetatable]
    simp only [registry_get, with_handle, handle_metatable, lua_setmetatable, index2value_neg1,
      index2value_neg2]
    cases hv : Option.map Prod.snd (List.find? (fun kv => kv.1 == LINCEPTION_METATABLE) registry) with
    | none => simp [lua_pop, take_snoc2]
    | some v => cases v <;> simp [lua_pop, take_snoc2]

theorem newstate_mid_enter (w : World) (args : List Value) :
    ({ L := { with_handle (enter w args).L none with stack := (enter w args).L.stack ++ [Value.userdata (enter w args).L.udata.length] },
       children := (enter w args).children } : World) = newstate_mid w args := by
  cases w with
  | mk L children => cases L; rfl

/-- The three outcomes of `linception.newstate(...)`, in full. -/
theorem newstate_eq (E : Engine) (w : World) (args : List Value) :
    lua_call E CFn.linc_newstate args w =
      if E.newuserdata_ok (enter w args) = true then
        if E.newstate_ok (newstate_mid w args) = true then
          ({ L := with_handle w.L (some w.children.length),
             children := w.children ++ [fresh_state w.L.allocf w.L.allocud] },
            Except.ok [Value.userdata w.L.udata.length])
        else
          ({ L := with_handle w.L none, children := w.children },
            Except.error (Fault.error "linception: could not create new Lua state"))
      else (w, Except.error Fault.errmem) := by
  have hw : ({ (enter w args) with L := { (enter w args).L with stack := w.L.stack } } : World)
      = w := by
    cases w with
    | mk L children => cases L; rfl
  by_cases h1 : E.newuserdata_ok (enter w args) = true
  · simp only [lua_call, call_cfunction, linc_newstate, newuserdata_ok_eq E _ h1,
      newstate_handle_step, linc_create_child_state, lua_getallocf, lua_newstate,
      newstate_mid_enter, h1, if_true]
    by_cases h2 : E.newstate_ok (newstate_mid w args) = true
    · simp only [h2, if_true]
      clear hw h1 h2
      cases w with
      | mk L children =>
        cases L
        simp [set_child, with_handle, enter, handle_metatable, registry_get, newstate_mid]
    · simp only [h2, if_false]
      clear hw h1 h2
      cases w with
      | mk L children =>
        cases L
        simp [set_child, with_handle, enter, handle_metatable, registry_get, newstate_mid]
  · simp only [lua_call, call_cfunction, linc_newstate, lua_newuserdata, h1, if_false]
    simp [hw]

/-- C6: a call of `linc_newstate` ends in one of these ways and no other. When the engine
grants the memory of the handle and of the child, it returns exactly one value, a new handle
whose slot points to a new child state; that state has the allocator function and allocator
pointer of the parent, and no library opened, no global and an empty stack. When the engine
refuses the child state, the call raises the Lua error
"linception: could not create new Lua state" and adds no child; when it refuses the memory
of the handle, the call raises a memory error and changes nothing. Every error it raises is
a Lua error, and whenever it returns, the handle it returns has a non-empty slot. -/
theorem newstate_outcomes (E : Engine) (w : World) (args : List Value) :
    let r := lua_call E CFn.linc_newstate args w
    (E.newuserdata_ok (enter w args) = true → E.newstate_ok (newstate_mid w args) = true →
      ∃ c, r.2 = Except.ok [Value.userdata w.L.udata.length] ∧
        handle_at r.1.L w.L.udata.length = { child := some w.children.length } ∧
        r.1.children = w.children ++ [c] ∧
        c.allocf = (lua_getallocf w.L).1 ∧ c.allocud = (lua_getallocf w.L).2 ∧
        c.opened = [] ∧ c.globals = [] ∧ c.stack = []) ∧
    (E.newuserdata_ok (enter w args) = true → E.newstate_ok (newstate_mid w args) = false →
      r.2 = Except.error (Fault.error "linception: could not create new Lua state") ∧
        r.1.children = w.children) ∧
    (E.newuserdata_ok (enter w args) = false → r = (w, Except.error Fault.errmem)) ∧
    (∀ e, r.2 = Except.error e → e.catchable = true) ∧
    (∀ vs, r.2 = Except.ok vs →
      ∃ sh p, vs = [Value.userdata sh] ∧ (handle_at r.1.L sh).child = some p ∧
        r.1.children[p]? = some (fresh_state w.L.allocf w.L.allocud)) := by
  intro r
  have key : r = _ := newstate_eq E w args
  have hat : ∀ slot, handle_at (with_handle w.L slot) w.L.udata.length = { child := slot } := by
    intro slot
    simp [handle_at, with_handle]
  refine ⟨?_, ?_, ?_, ?_, ?_⟩
  · intro h1 h2
    rw [key, if_pos h1, if_pos h2]
    exact ⟨fresh_state w.L.allocf w.L.allocud, rfl, hat _, rfl, rfl, rfl, rfl, rfl, rfl⟩
  · intro h1 h2
    rw [key]
    simp [h1, h2]
  · intro h1
    rw [key]
    simp [h1]
  · intro e he
    rw [key] at he
    split_ifs at he <;> simp at he <;> subst he <;> rfl
  · intro vs hv
    by_cases h1 : E.newuserdata_ok (enter w args) = true
    · by_cases h2 : E.newstate_ok (newstate_mid w args) = true
      · rw [key] at hv ⊢
        simp only [h1, h2, if_true] at hv ⊢
        simp only [Except.ok.injEq] at hv
        refine ⟨w.L.udata.length, w.children.length, hv.symm, ?_, ?_⟩
        · rw [hat]
        · simp
      · rw [key] at hv
        simp [h1, h2] at hv
    · rw [key] at hv
      simp [h1] at hv

/-- Witness: `linception.newstate()` in `world0` with an engine that
grants all memory. -/
theorem newstate_outcomes_witness :
    toyEngine.newuserdata_ok (enter world0 []) = true ∧
    toyEngine.newstate_ok (newstate_mid world0 []) = true ∧
    ∃ c, (lua_call toyEngine CFn.linc_newstate [] world0).2
        = Except.ok [Value.userdata world0.L.udata.length] ∧
      handle_at (lua_call toyEngine CFn.linc_newstate [] world0).1.L world0.L.udata.length
        = { child := some world0.children.length } ∧
      (lua_call toyEngine CFn.linc_newstate [] world0).1.children = world0.children ++ [c] ∧
      c.allocf = (lua_getallocf world0.L).1 ∧ c.allocud = (lua_getallocf world0.L).2 ∧
      c.opened = [] ∧ c.globals = [] ∧ c.stack = [] :=
  ⟨rfl, rfl, (newstate_outcomes toyEngine world0 []).1 rfl rfl⟩

/-! ## The guard: `linc_check_state_handle` -/

/-- When the guard fails, a handle operation ends with the guard's error and the world is
as before the call. -/
theorem lua_call_guard_fails (E : Engine) (w : World) (args : List Value) (f : CFn) (e : Fault)
    (hf : f ∈ [CFn.linc_state_openlib, CFn.linc_state_dostring])
    (h : linc_check_state_handle (enter w args).L = Except.error e) :
    lua_call E f args w = (w, Except.error e) := by
  have hw : ({ (enter w args) with L := { (enter w args).L with stack := w.L.stack } } : World)
      = w := by
    cases w with
    | mk L children => cases L; rfl
  simp only [List.mem_cons, List.mem_singleton, List.not_mem_nil, or_false] at hf
  rcases hf with hf | hf <;> subst hf
  · simp [lua_call, call_cfunction, linc_state_openlib, h, hw]
  · simp [lua_call, call_cfunction, linc_state_dostring, h, hw]

/-- C4: `openlib` and `dostring` check their receiver before anything else. When argument 1
is not a handle of the recognised kind, the call fails with an argument error on argument 1
that names the expected kind; when it is a handle whose slot is empty, the call fails with
the argument error "state has been closed" on argument 1. In both cases this holds whatever
the other arguments are, and the world after the call is the world before it: no child is
touched, nothing is pushed, the slot is still empty, and any later call behaves as it would
have before. -/
theorem handle_checked_first (E : Engine) (w : World) (args : List Value) (f : CFn)
    (hf : f ∈ [CFn.linc_state_openlib, CFn.linc_state_dostring]) :
    (handle_kind w.L args.head? = none →
      lua_call E f args w =
        (w, Except.error (Fault.argerror 1
          (LINCEPTION_METATABLE ++ " expected, got " ++ luaL_typename args.head?)))) ∧
    (∀ sh, handle_kind w.L args.head? = some sh → (handle_at w.L sh).child = none →
      lua_call E f args w = (w, Except.error (Fault.argerror 1 "state has been closed")) ∧
      (handle_at (lua_call E f args w).1.L sh).child = none ∧
      ∀ g args2, lua_call E g args2 (lua_call E f args w).1 = lua_call E g args2 w) := by
  have h1 : index2value (enter w args).L 1 = args.head? := by
    rw [index2value_one, enter_L_stack]
    cases args <;> simp
  have hk : handle_kind (enter w args).L args.head? = handle_kind w.L args.head? := rfl
  constructor
  · intro hnone
    apply lua_call_guard_fails E w args f _ hf
    rw [check_state_handle_eq, h1, hk, hnone]
    simp [luaL_typerror, h1]
  · intro sh hsome hclosed
    have hat : (handle_at (enter w args).L sh).child = none := hclosed
    have key : lua_call E f args w = (w, Except.error (Fault.argerror 1 "state has been closed")) := by
      apply lua_call_guard_fails E w args f _ hf
      rw [check_state_handle_eq, h1, hk, hsome]
      simp [hat]
    refine ⟨key, ?_, ?_⟩
    · rw [key]; exact hclosed
    · intro g args2
      rw [key]

/-- Witness: `dostring` on a number in `world1`, and `openlib` on
the handle with an empty slot in `world_closed`. -/
theorem handle_checked_first_witness :
    (lua_call toyEngine CFn.linc_state_dostring [Value.number 3, Value.string "x = 1"] world1 =
      (world1, Except.error (Fault.argerror 1
        (LINCEPTION_METATABLE ++ " expected, got " ++ luaL_typename (some (Value.number 3)))))) ∧
    (lua_call toyEngine CFn.linc_state_openlib [Value.userdata 0, Value.string "network"]
        world_closed =
      (world_closed, Except.error (Fault.argerror 1 "state has been closed"))) :=
  ⟨(handle_checked_first toyEngine world1 [Value.number 3, Value.string "x = 1"]
      CFn.linc_state_dostring (by decide)).1 (by decide),
    ((handle_checked_first toyEngine world_closed [Value.userdata 0, Value.string "network"]
      CFn.linc_state_openlib (by decide)).2 0 (by decide) (by decide)).1⟩

/-! ## Registration and release -/

theorem getElem_opt_snoc3 (zs : List Value) (c b a : Value) :
    (zs ++ [c, b, a])[zs.length]? = some c := by
  induction zs with
  | nil => rfl
  | cons x xs ih => simpa using ih

theorem index2value_neg3 (st : lua_State) :
    index2value st (-3) = st.stack.dropLast.dropLast.getLast? := by
  rcases List.eq_nil_or_concat st.stack with h | ⟨xs, a, h⟩
  · simp [index2value, absindex, h]
  · rcases List.eq_nil_or_concat xs with h2 | ⟨ys, b, h2⟩
    · simp [index2value, absindex, h, h2]
    · rcases List.eq_nil_or_concat ys with h3 | ⟨zs, c, h3⟩
      · simp [index2value, absindex, h, h2, h3]
      · subst h2 h3
        have g := getElem_opt_snoc3 zs c b a
        simp only [index2value, absindex, h, List.concat_eq_append, List.append_assoc,
          List.singleton_append, List.length_append, List.length_cons, List.length_nil,
          List.cons_append, List.nil_append]
        have e2 : ¬ (0 : Int) < -3 := by omega
        have e3 : (((zs.length + (0 + 1 + 1 + 1) : Nat) : Int) + 1 + -3).toNat = zs.length + 1 := by
          push_cast; omega
        simp only [e2, if_false, e3]
        rw [g]
        simp

theorem getElem_snoc_two (xs : List (List (Value × Value))) (a b : List (Value × Value))
    (h : xs.length + 1 < (xs ++ [a, b]).length) : (xs ++ [a, b])[xs.length + 1] = b := by
  induction xs with
  | nil => rfl
  | cons x xs ih => simpa using ih (by simp)

theorem take_snoc4 (xs : List Value) (a b c d : Value) :
    List.take (xs.length + 1) (List.take (xs.length + 2) (xs ++ [a, b, c, d])) = xs ++ [a] := by
  induction xs with
  | nil => rfl
  | cons x xs ih => simpa using ih

/-- The first `luaopen_linception` on a state: the library table and the handle metatable are
created, the metatable is registered, and the library table is left on the stack. -/
theorem luaopen_eq (L : lua_State) (h : registry_get L LINCEPTION_METATABLE = none) :
    (luaopen_linception L).1 =
      { L with
        stack := L.stack ++ [Value.table L.tables.length],
        tables := L.tables ++
          [[(Value.string "newstate", Value.cfunction CFn.linc_newstate)],
            installed_metatable (L.tables.length + 1)],
        registry := L.registry ++ [(LINCEPTION_METATABLE, Value.table (L.tables.length + 1))] } := by
  cases L with
  | mk allocf allocud stack registry tables udata globals opened =>
    simp only [registry_get] at h
    simp [luaopen_linception, lua_newtable, lua_push, luaL_register, index2value_neg1,
      index2value_neg2, index2value_neg3, heap_set, linc_install_metatable, luaL_newmetatable,
      registry_get, h, lua_pushliteral, lua_pushvalue, lua_settable, lua_pop, table_set,
      installed_metatable, getElem_snoc_two, take_snoc4]

theorem luaopen_no_release_step (L : lua_State)
    (h : registry_get L LINCEPTION_METATABLE = none) :
    no_release_step (luaopen_linception L).1 (L.tables.length + 1) ∧
      (luaopen_linception L).1.tables[L.tables.length + 1]?
        = some (installed_metatable (L.tables.length + 1)) := by
  rw [luaopen_eq L h]
  have hfind : List.find? (fun kv => kv.1 == LINCEPTION_METATABLE) L.registry = none := by
    simpa [registry_get] using h
  have htab : (L.tables ++ [[(Value.string "newstate", Value.cfunction CFn.linc_newstate)],
      installed_metatable (L.tables.length + 1)])[L.tables.length + 1]?
        = some (installed_metatable (L.tables.length + 1)) := by
    rw [List.getElem?_eq_getElem (by simp), getElem_snoc_two]
  refine ⟨⟨?_, ?_⟩, htab⟩
  · simp [registry_get, List.find?_append, hfind]
  · rw [htab]
    simp [table_get, installed_metatable]

/-- The finalizer of a userdata is the same in a state that has the same tables and only
more userdata. -/
theorem gc_finalizer_ext (L L1 : lua_State) (ext : List (Option UData)) (u : Nat)
    (htab : L1.tables = L.tables) (hud : L1.udata = L.udata ++ ext) (hu : u < L.udata.length) :
    gc_finalizer L1 u = gc_finalizer L u := by
  simp only [gc_finalizer, htab, hud, List.getElem?_append_left hu]

/-- A handle allocated while the registered metatable has no `__gc` entry has no finalizer. -/
theorem gc_finalizer_new_handle (L : lua_State) (m : Nat) (slot : Option Nat)
    (h : no_release_step L m) : gc_finalizer (with_handle L slot) L.udata.length = none := by
  obtain ⟨hr, hg⟩ := h
  cases ht : L.tables[m]? with
  | none => simp [ht] at hg
  | some t =>
      simp only [ht, Option.map_some', Option.some.injEq] at hg
      simp [gc_finalizer, with_handle, handle_metatable, hr, ht, hg]

/-- What `n` creations do to a world whose handle metatable has no `__gc` entry: the tables
stay, userdata are only added, every handle returned has no finalizer, and each of them
came with one new child state. -/
theorem create_handles_spec (E : Engine) (n : Nat) (m : Nat) :
    ∀ w : World, no_release_step w.L m →
      no_release_step (create_handles E n w).1.L m ∧
      (create_handles E n w).1.L.tables = w.L.tables ∧
      (∃ ext, (create_handles E n w).1.L.udata = w.L.udata ++ ext) ∧
      (∀ u ∈ (create_handles E n w).2,
        u < (create_handles E n w).1.L.udata.length ∧
          gc_finalizer (create_handles E n w).1.L u = none) ∧
      (create_handles E n w).1.children =
        w.children ++
          List.replicate (create_handles E n w).2.length (fresh_state w.L.allocf w.L.allocud) := by
  induction n with
  | zero =>
      intro w hinv
      refine ⟨hinv, rfl, ⟨[], by simp [create_handles]⟩, ?_, by simp [create_handles]⟩
      intro u hu
      simp [create_handles] at hu
  | succ n ih =>
      intro w hinv
      by_cases h1 : E.newuserdata_ok (enter w []) = true
      · by_cases h2 : E.newstate_ok (newstate_mid w []) = true
        · have hstep : create_handles E (n + 1) w =
              ((create_handles E n
                  { L := with_handle w.L (some w.children.length),
                    children := w.children ++ [fresh_state w.L.allocf w.L.allocud] }).1,
                w.L.udata.length ::
                  (create_handles E n
                    { L := with_handle w.L (some w.children.length),
                      children := w.children ++ [fresh_state w.L.allocf w.L.allocud] }).2) := by
            simp only [create_handles, newstate_eq, h1, h2, if_true]
          have hinv1 : no_release_step (with_handle w.L (some w.children.length)) m := hinv
          obtain ⟨i1, i2, ⟨ext, i3⟩, i4, i5⟩ := ih
            { L := with_handle w.L (some w.children.length),
              children := w.children ++ [fresh_state w.L.allocf w.L.allocud] } hinv1
          rw [hstep]
          refine ⟨i1, i2,
            ⟨some { block := { child := some w.children.length },
                    metatable := handle_metatable w.L } :: ext,
              by rw [i3]; simp [with_handle]⟩, ?_, ?_⟩
          · intro u hu
            rcases List.mem_cons.mp hu with hu | hu
            · subst hu
              have hlt : w.L.udata.length < (with_handle w.L (some w.children.length)).udata.length := by
                simp [with_handle]
              refine ⟨by rw [i3]; simp [with_handle], ?_⟩
              rw [gc_finalizer_ext _ _ ext _ i2 i3 hlt]
              exact gc_finalizer_new_handle w.L m _ hinv
            · exact i4 u hu
          · rw [i5]
            simp [with_handle, List.replicate_succ]
        · have hstep : create_handles E (n + 1) w =
              create_handles E n { L := with_handle w.L none, children := w.children } := by
            simp only [create_handles, newstate_eq, h1, h2, if_true, if_false]
            simp
          have hinv1 : no_release_step (with_handle w.L none) m := hinv
          obtain ⟨i1, i2, ⟨ext, i3⟩, i4, i5⟩ := ih
            { L := with_handle w.L none, children := w.children } hinv1
          rw [hstep]
          exact ⟨i1, i2,
            ⟨some { block := { child := none }, metatable := handle_metatable w.L } :: ext,
              by rw [i3]; simp [with_handle]⟩, i4, i5⟩
      · have hstep : create_handles E (n + 1) w = create_handles E n w := by
          simp only [create_handles, newstate_eq, h1, if_false]
          simp
        rw [hstep]
        exact ih w hinv

/-- The collection of a userdata without finalizer frees its block and does nothing else. -/
theorem collect_plain (E : Engine) (w : World) (u : Nat) (h : gc_finalizer w.L u = none) :
    lua_collect E w u = { w with L := { w.L with udata := w.L.udata.set u none } } := by
  simp [lua_collect, h]

/-- Freeing a block gives no userdata a finalizer. -/
theorem gc_finalizer_after_free (L : lua_State) (u v : Nat) (h : gc_finalizer L v = none) :
    gc_finalizer { L with udata := L.udata.set u none } v = none := by
  by_cases huv : u = v
  · subst huv
    by_cases hlt : u < L.udata.length
    · simp [gc_finalizer, hlt]
    · have hnone : (L.udata.set u none)[u]? = none :=
        List.getElem?_eq_none (by simp; omega)
      simp only [gc_finalizer, hnone]
  · simp only [gc_finalizer, List.getElem?_set_ne huv]
    exact h

/-- Releasing handles that have no finalizer leaves every child state as it was. -/
theorem release_all_children (E : Engine) (hs : List Nat) :
    ∀ w : World, (∀ u ∈ hs, gc_finalizer w.L u = none) →
      (release_all E hs w).children = w.children ∧
      (release_all E hs w).L.tables = w.L.tables := by
  induction hs with
  | nil => intro w _; exact ⟨rfl, rfl⟩
  | cons u rest ih =>
      intro w h
      have hu := h u (List.mem_cons_self _ _)
      have hrest : ∀ v ∈ rest, gc_finalizer (lua_collect E w u).L v = none := by
        intro v hv
        rw [collect_plain E w u hu]
        exact gc_finalizer_after_free w.L u v (h v (List.mem_cons_of_mem _ hv))
      obtain ⟨c1, c2⟩ := ih (lua_collect E w u) hrest
      have e : release_all E (u :: rest) w = release_all E rest (lua_collect E w u) := rfl
      rw [e, c1, c2, collect_plain E w u hu]
      exact ⟨rfl, rfl⟩

/-- C7 (counterexample): with an engine that grants all memory, two handles are created in
`world0`, which has no child state, and both are released: their blocks are freed, and the
two child states are still there. -/
theorem release_leaves_children_live :
    world0.children = [] ∧
    (create_handles toyEngine 2 world0).2 = [0, 1] ∧
    (release_all toyEngine (create_handles toyEngine 2 world0).2
        (create_handles toyEngine 2 world0).1).L.udata = [none, none] ∧
    (release_all toyEngine (create_handles toyEngine 2 world0).2
        (create_handles toyEngine 2 world0).1).children = [fresh_state 7 8, fresh_state 7 8] ∧
    (release_all toyEngine (create_handles toyEngine 2 world0).2
        (create_handles toyEngine 2 world0).1).children ≠ world0.children := by
  refine ⟨by decide, by decide, by decide, by decide, by decide⟩

/-- C7 (amended): the handle metatable that `linc_install_metatable` builds when the library
is first opened holds `openlib`, `dostring` and `__index` and nothing else, so it gives
collected handles no release step: no handle created by `linc_newstate` has a finalizer,
and releasing all the handles created by `n` calls leaves every child state in place. Each
handle that was returned added one child state, and after the release of all of them these
child states are all still live. -/
theorem release_closes_no_child (E : Engine) (L0 : lua_State) (cs : List lua_State) (n : Nat)
    (h : registry_get L0 LINCEPTION_METATABLE = none) :
    let w0 : World := { L := (luaopen_linception L0).1, children := cs }
    let created := create_handles E n w0
    let released := release_all E created.2 created.1
    registry_get w0.L LINCEPTION_METATABLE = some (Value.table (L0.tables.length + 1)) ∧
    w0.L.tables[L0.tables.length + 1]? = some (installed_metatable (L0.tables.length + 1)) ∧
    table_get (installed_metatable (L0.tables.length + 1)) (Value.string "__gc") = none ∧
    (∀ u ∈ created.2, gc_finalizer created.1.L u = none) ∧
    created.1.children =
      cs ++ List.replicate created.2.length (fresh_state L0.allocf L0.allocud) ∧
    released.children = created.1.children := by
  intro w0 created released
  obtain ⟨hinv, htab⟩ := luaopen_no_release_step L0 h
  have hinv0 : no_release_step w0.L (L0.tables.length + 1) := hinv
  obtain ⟨_, _, _, c4, c5⟩ := create_handles_spec E n (L0.tables.length + 1) w0 hinv0
  have ha : w0.L.allocf = L0.allocf := by
    show (luaopen_linception L0).1.allocf = _
    rw [luaopen_eq L0 h]
  have hb : w0.L.allocud = L0.allocud := by
    show (luaopen_linception L0).1.allocud = _
    rw [luaopen_eq L0 h]
  refine ⟨hinv.1, htab, by simp [table_get, installed_metatable], fun u hu => (c4 u hu).2, ?_, ?_⟩
  · rw [← ha, ← hb]
    exact c5
  · exact (release_all_children E created.2 created.1 (fun u hu => (c4 u hu).2)).1

/-- Witness: three creations after the first opening of the
library in a fresh parent state. -/
theorem release_closes_no_child_witness :
    registry_get (fresh_state 7 8) LINCEPTION_METATABLE = none ∧
    (release_all toyEngine
        (create_handles toyEngine 3
          { L := (luaopen_linception (fresh_state 7 8)).1, children := [] }).2
        (create_handles toyEngine 3
          { L := (luaopen_linception (fresh_state 7 8)).1, children := [] }).1).children
      = (create_handles toyEngine 3
          { L := (luaopen_linception (fresh_state 7 8)).1, children := [] }).1.children :=
  ⟨rfl, (release_closes_no_child toyEngine (fresh_state 7 8) [] 3 rfl).2.2.2.2.2⟩

end Linception
